import Mathlib

/-!
Shallow embedding of the mco macro layer (`src/macros.rs`) and of the
runtime pieces its macros call into (spec §4.3, §4.5, §4.6, §4.7).

The repository's `src/` holds only `macros.rs`; the runtime functions the
macros expand to (`coroutine::spawn`, `Builder`, `cqueue::scope`/`poll`,
`coroutine::scope`, `LocalKey::with`) are modelled from the spec, each
marked `Modelled from the spec:` in its doc comment.  Everything else is
translated directly from the macro expansions in `macros.rs`.
-/

namespace Mco

/-! ### Builder and spawn (spec §4.3, §6; used by `go!` / `go_with!`) -/

/-- Modelled from the spec: `Builder` (§4.3, §3) — "stack size (defaults to a
fixed constant if unset), optional name".  Pure configuration record. -/
structure Builder where
  nameVal : Option String
  stackSizeVal : Option Nat
deriving DecidableEq, Repr

/-- Modelled from the spec: `Builder::new()` — default configuration:
no name, default (unset) stack size. -/
def Builder.new : Builder := { nameVal := none, stackSizeVal := none }

/-- Modelled from the spec: fluent `.name(String)` setter (§4.3). -/
def Builder.name (b : Builder) (n : String) : Builder :=
  { b with nameVal := some n }

/-- Modelled from the spec: fluent `.stack_size(usize)` setter (§4.3). -/
def Builder.stack_size (b : Builder) (s : Nat) : Builder :=
  { b with stackSizeVal := some s }

/-- A spawn request as it reaches the scheduler: the configuration used and
the closure being spawned (closures abstracted as values of `α`). -/
structure SpawnCall (α : Type) where
  config : Builder
  func : α
deriving DecidableEq, Repr

/-- Modelled from the spec: `.spawn(fn) -> Handle` (§4.3) — consumes the
builder, creating a coroutine with the requested configuration. -/
def Builder.spawn (b : Builder) (f : α) : SpawnCall α :=
  { config := b, func := f }

/-- Modelled from the spec: `coroutine::spawn` — "Spawn(fn) -> Handle — free
spawn, default configuration" (§6): spawns with no name and default stack
size. -/
def coroutineSpawn (f : α) : SpawnCall α :=
  { config := { nameVal := none, stackSizeVal := none }, func := f }

/-- Embeds `go!($func)` (macros.rs lines 10-12): expands to
`coroutine::spawn($func)`. -/
def goFree (f : α) : SpawnCall α := coroutineSpawn f

/-- Embeds the `_go_check` helper of `go_with!` (macros.rs lines 36-43):
a typing fence that returns the closure unchanged. -/
def go_check (_stackSize : Nat) (f : α) : α := f

/-- Embeds the two-argument `_go_check` of `go_with!` (macros.rs lines 50-57). -/
def go_check2 (_name : String) (_stackSize : Nat) (f : α) : α := f

/-- Embeds `go_with!($stack_size, $func)` (macros.rs lines 35-46):
`Builder::new().stack_size($stack_size)` then `.spawn(f)`. -/
def goWithStack (stackSize : Nat) (f : α) : SpawnCall α :=
  let f := go_check stackSize f
  let builder := Builder.new.stack_size stackSize
  builder.spawn f

/-- Embeds `go_with!($name, $stack_size, $func)` (macros.rs lines 49-62):
`Builder::new().name($name.to_owned()).stack_size($stack_size)` then
`.spawn(f)`. -/
def goWithNameStack (n : String) (stackSize : Nat) (f : α) : SpawnCall α :=
  let f := go_check2 n stackSize f
  let builder := (Builder.new.name n).stack_size stackSize
  builder.spawn f

/-! ### One-shot select arms (`cqueue_add_oneshot!`, macros.rs lines 84-93) -/

/-- The observable actions of a select arm: running the case body, or
pushing a token into the multiplexer outbox (`es.send(es.get_token())`). -/
inductive ArmAction where
  | runBody
  | sendToken (t : Nat)
deriving DecidableEq, Repr

/-- Embeds the body of the coroutine produced by `cqueue_add_oneshot!`
(macros.rs lines 86-91):

```
|es| {
    if let $name = $top { $bottom }
    es.send(es.get_token());
}
```

`token` is the arm's token (`es.get_token()`), `isMatch` records whether the
pattern `$name` matches the value of the guarded expression `$top`.  The
result is the ordered trace of observable actions the arm performs before it
terminates. -/
def oneshotArmTrace (token : Nat) (isMatch : Bool) : List ArmAction :=
  (if isMatch then [ArmAction.runBody] else []) ++ [ArmAction.sendToken token]

/-- How many times a trace pushes token `t` to the outbox. -/
def sendCount (tr : List ArmAction) (t : Nat) : Nat :=
  tr.countP (fun a => a = ArmAction.sendToken t)

/-! ### The multiplexer and `select!` (macros.rs lines 110-127, spec §4.5) -/

/-- The multiplexer: an ordered list of (token, arm) bindings, in
registration order. `α` abstracts the arm closures. -/
structure Cqueue (α : Type) where
  arms : List (Nat × α)
deriving DecidableEq, Repr

/-- Modelled from the spec: `cqueue.add(token, fn)` (§3 Multiplexer) —
registers one more (token, coroutine) binding, keeping registration order. -/
def Cqueue.add (q : Cqueue α) (token : Nat) (arm : α) : Cqueue α :=
  { arms := q.arms ++ [(token, arm)] }

/-- Embeds the registration loop of `select!` (macros.rs lines 116-120):
`let mut _token = 0;` then, for each case in textual order,
`cqueue_add_oneshot!(cqueue, _token, ...); _token += 1;`. -/
def addArms (q : Cqueue α) (token : Nat) : List α → Cqueue α
  | [] => q
  | c :: cs => addArms (q.add token c) (token + 1) cs

/-- The multiplexer state after `select!` has registered all its cases. -/
def selectRegister (cases : List α) : Cqueue α :=
  addArms { arms := [] } 0 cases

/-- An event delivered by `poll`: the token of the arm that fired. -/
structure Event where
  token : Nat
deriving DecidableEq, Repr

/-- Modelled from the spec: `cqueue.poll(None)` (§4.5) — "blocks the calling
coroutine until the outbox yields an entry ...; it returns the token of the
first arm to fire."  The outbox is the list of tokens in firing order; with
no timeout, poll returns the first entry, and yields an error only when no
entry can ever arrive. -/
def cqueuePoll (outbox : List Nat) : Except Unit Event :=
  match outbox with
  | t :: _ => Except.ok { token := t }
  | [] => Except.error ()

/-- The value a `select!` expression evaluates to: either the fired token,
or a fatal abort (the `unreachable!("select error")` branch, macros.rs line
123). -/
inductive SelectOutcome where
  | token (t : Nat)
  | fatal (msg : String)
deriving DecidableEq, Repr

/-- Embeds the result match of `select!` (macros.rs lines 121-124):
`match cqueue.poll(None) { Ok(ev) => return ev.token, _ =>
unreachable!("select error") }`. -/
def selectFinish (pr : Except Unit Event) : SelectOutcome :=
  match pr with
  | Except.ok ev => SelectOutcome.token ev.token
  | Except.error _ => SelectOutcome.fatal "select error"

/-- The whole `select!` expansion: register the cases under tokens 0,1,...,
poll the outbox, and produce the outcome. -/
def selectRun (cases : List α) (outbox : List Nat) : SelectOutcome :=
  let _q := selectRegister cases
  selectFinish (cqueuePoll outbox)

/-! ### Scope and `join!` (macros.rs lines 139-150, spec §4.6) -/

/-- Coroutine status (spec §3 Coroutine). -/
inductive Status where
  | Ready
  | Running
  | Blocked
  | Done
deriving DecidableEq, Repr

/-- A scope handle tracking its spawned children, in spawn order
(spec §3 Scope). `α` abstracts the child bodies. -/
structure Scope (α : Type) where
  spawned : List α
deriving DecidableEq, Repr

/-- Modelled from the spec: `go!(scope, fn)` inside a scope "spawns a child
Coroutine bound to that Scope" (§4.6). -/
def Scope.spawn (s : Scope α) (f : α) : Scope α :=
  { spawned := s.spawned ++ [f] }

/-- Embeds the scope body of `join!` (macros.rs lines 144-148): for each
body expression, in textual order, `go!(s, || body)`. -/
def joinRegister (bodies : List α) : Scope α :=
  bodies.foldl Scope.spawn { spawned := [] }

/-- Modelled from the spec: child `i` of the scope reaches Done
("On completion, the Coroutine ... transitions to Done; if it belongs to a
Scope, the Scope is notified", §4.2).  `st` maps each child index to its
status. -/
def finishChild (st : Nat → Status) (i : Nat) : Nat → Status :=
  fun j => if j = i then Status.Done else st j

/-- The statuses of the scope's children after the children listed in
`order` (the completion order) have finished; all start Ready. -/
def childStatuses (order : List Nat) : Nat → Status :=
  order.foldl finishChild (fun _ => Status.Ready)

/-- Modelled from the spec: the exit condition of `coroutine::scope` —
"Leaving the scope blocks the calling coroutine until every bound child
reaches Done" (§4.6): with `n` bound children, the scope may return exactly
when every child's status is Done. -/
def scopeMayReturn (n : Nat) (st : Nat → Status) : Bool :=
  (List.range n).all (fun i => st i = Status.Done)

/-! ### Coroutine-local storage (`coroutine_local!`, macros.rs lines
160-176, spec §4.7) -/

/-- The `LocalKey` descriptor produced by `coroutine_local!`
(macros.rs lines 170-173): an initializer function and a key function.
`TypeId` is modelled as a `Nat` identifying a marker type (spec §9: the
identity is "originally derived from a type marker" and may be modelled as
"an incrementing registry index"). -/
structure LocalKey (α : Type) where
  __init : Unit → α
  __key : Unit → Nat

/-- Embeds the expansion of `coroutine_local!(static N: T = e)`
(macros.rs lines 161-174): `fn __init() -> T { e }` and
`fn __key() -> TypeId { struct __A; TypeId::of::<__A>() }`.
`markerTypeId` is the TypeId of the expansion's freshly declared private
marker type `__A`; each expansion declares its own `__A`, and Rust gives
distinct types distinct TypeIds, so distinct expansions carry distinct
`markerTypeId`s. -/
def coroutine_local (markerTypeId : Nat) (e : α) : LocalKey α :=
  { __init := fun _ => e, __key := fun _ => markerTypeId }

/-- A coroutine's private cell map: identity → stored value, in insertion
order (spec §3 Local cell). -/
def lookupCell (cells : List (Nat × α)) (k : Nat) : Option α :=
  (cells.find? (fun p => p.1 = k)).map Prod.snd

/-- Modelled from the spec: `LocalKey::with(fn)` (§4.7) — "looks up the
calling coroutine's private cell for that identity; if absent, runs the
initializer, stores the result, then invokes `fn` with a reference to it."
Returns the value handed to `fn` and the coroutine's updated cell map. -/
def LocalKey.withAccess (key : LocalKey α) (cells : List (Nat × α)) :
    α × List (Nat × α) :=
  match lookupCell cells (key.__key ()) with
  | some v => (v, cells)
  | none =>
      let v := key.__init ()
      (v, cells ++ [(key.__key (), v)])

/-! ### Helper lemmas (shared) -/

theorem addArms_map_fst (cs : List α) : ∀ (q : Cqueue α) (t : Nat),
    (addArms q t cs).arms.map Prod.fst =
      q.arms.map Prod.fst ++ List.range' t cs.length := by
  induction cs with
  | nil => intro q t; simp [addArms]
  | cons c cs ih =>
      intro q t
      rw [addArms, ih]
      simp [Cqueue.add, List.range'_succ]

theorem selectRegister_tokens (cases : List α) :
    (selectRegister cases).arms.map Prod.fst = List.range cases.length := by
  rw [selectRegister, addArms_map_fst, List.range_eq_range']
  simp

theorem sendCount_oneshot_le_one (t : Nat) (m : Bool) (t' : Nat) :
    sendCount (oneshotArmTrace t m) t' ≤ 1 := by
  cases m <;> by_cases h : t = t' <;>
    simp [sendCount, oneshotArmTrace, List.countP_cons, h]

theorem joinRegister_spawned (bodies : List α) :
    (joinRegister bodies).spawned = bodies := by
  have key : ∀ (bs : List α) (s : Scope α),
      (bs.foldl Scope.spawn s).spawned = s.spawned ++ bs := by
    intro bs
    induction bs with
    | nil => intro s; simp
    | cons b bs ih => intro s; simp [Scope.spawn, ih]
  simpa using key bodies { spawned := [] }

theorem foldl_finishChild_apply (order : List Nat) :
    ∀ (st : Nat → Status) (j : Nat),
      order.foldl finishChild st j =
        if order.contains j then Status.Done else st j := by
  induction order with
  | nil => intro st j; simp
  | cons k rest ih =>
      intro st j
      rw [List.foldl_cons, ih]
      by_cases hjk : j = k
      · subst hjk
        simp [finishChild]
      · simp [finishChild, hjk]

theorem all_congr_list {p q : α → Bool} :
    ∀ (l : List α), (∀ x ∈ l, p x = q x) → l.all p = l.all q := by
  intro l h
  induction l with
  | nil => rfl
  | cons a l ih =>
      simp only [List.all_cons, h a (by simp),
        ih (fun x hx => h x (by simp [hx]))]

theorem scopeMayReturn_childStatuses (n : Nat) (order : List Nat) :
    scopeMayReturn n (childStatuses order) =
      (List.range n).all (fun i => order.contains i) := by
  rw [scopeMayReturn]
  apply all_congr_list
  intro i _
  rw [childStatuses, foldl_finishChild_apply]
  by_cases h : order.contains i <;> simp [h]

theorem lookupCell_append_ne (cells : List (Nat × α)) (k1 k2 : Nat) (v : α)
    (h : k1 ≠ k2) :
    lookupCell (cells ++ [(k1, v)]) k2 = lookupCell cells k2 := by
  rw [lookupCell, lookupCell, List.find?_append]
  have hone : List.find? (fun p => p.1 = k2) [(k1, v)] = none := by
    simp [List.find?, h]
  rw [hone]
  cases List.find? (fun p => p.1 = k2) cells <;> simp

/-! ### Claim theorems -/

/-- C1: `select!` with N cases registers the cases' arms under tokens
0, 1, ..., N-1 in textual order, and evaluates to the token returned by the
multiplexer's poll — the token of whichever case fired first (the head of
the outbox). -/
theorem select_registers_in_order_and_returns_first_fired (cases : List α)
    (t : Nat) (rest : List Nat) :
    (selectRegister cases).arms.map Prod.fst = List.range cases.length ∧
    cqueuePoll (t :: rest) = Except.ok { token := t } ∧
    selectRun cases (t :: rest) = SelectOutcome.token t :=
  ⟨selectRegister_tokens cases, rfl, rfl⟩

/-- C2 counterexample: at token 0 with a matching guard, the arm produced by
`cqueue_add_oneshot!` runs the body before pushing its token — the trace is
`[runBody, sendToken 0]`, not the claimed token-first `[sendToken 0,
runBody]`. -/
theorem oneshot_token_first_counterexample :
    oneshotArmTrace 0 true = [ArmAction.runBody, ArmAction.sendToken 0] ∧
    ¬ oneshotArmTrace 0 true = [ArmAction.sendToken 0, ArmAction.runBody] := by
  decide

/-- C2 (amended): upon success of its guarded expression, a one-shot arm
executes its associated body first, then pushes its token to the outbox
exactly once, then terminates — token emission happens after the body
runs. -/
theorem oneshot_body_then_token_once (t : Nat) :
    oneshotArmTrace t true = [ArmAction.runBody, ArmAction.sendToken t] ∧
    sendCount (oneshotArmTrace t true) t = 1 := by
  refine ⟨by simp [oneshotArmTrace], ?_⟩
  simp [sendCount, oneshotArmTrace, List.countP_cons]

/-- C3: within one `select!` multiplexer instance the registered arms carry
pairwise distinct tokens, and a one-shot arm emits at most one event for any
token over its entire execution. -/
theorem select_tokens_distinct_and_oneshot_at_most_once (cases : List α)
    (t : Nat) (m : Bool) (t' : Nat) :
    ((selectRegister cases).arms.map Prod.fst).Nodup ∧
    sendCount (oneshotArmTrace t m) t' ≤ 1 := by
  refine ⟨?_, sendCount_oneshot_le_one t m t'⟩
  rw [selectRegister_tokens]
  exact List.nodup_range cases.length

/-- C4: a `select!` with no timeout whose poll yields no successful event
reaches the `unreachable!("select error")` branch: the expression's outcome
is the fatal abort, not a recoverable error value. -/
theorem select_poll_failure_is_fatal (cases : List α) :
    (∀ e : Unit, selectFinish (Except.error e) =
      SelectOutcome.fatal "select error") ∧
    selectFinish (cqueuePoll []) = SelectOutcome.fatal "select error" ∧
    selectRun cases [] = SelectOutcome.fatal "select error" :=
  ⟨fun _ => rfl, rfl, rfl⟩

/-- C5: the free spawn `go!(fn)` performs exactly the spawn
`Builder::new().spawn(fn)` with default configuration — no name, default
stack size. -/
theorem go_free_is_default_builder_spawn (f : α) :
    goFree f = Builder.new.spawn f ∧ (goFree f).config = Builder.new :=
  ⟨rfl, rfl⟩

/-- C6: `go_with!(name, stack_size, fn)` spawns through a builder configured
with exactly that name and stack size, and `go_with!(stack_size, fn)`
through a builder with exactly that stack size and no name; the closure is
passed through unchanged. -/
theorem go_with_builder_config (n : String) (s : Nat) (f : α) :
    goWithNameStack n s f =
      { config := { nameVal := some n, stackSizeVal := some s }, func := f } ∧
    goWithStack s f =
      { config := { nameVal := none, stackSizeVal := some s }, func := f } :=
  ⟨rfl, rfl⟩

/-- C7: `join!` spawns each body, in textual order, as a child bound to one
scope; the scope exit (the join) can return after a completion sequence
exactly when every one of the N children appears in it — i.e. only after all
N reach Done, regardless of individual completion order. -/
theorem join_spawns_all_and_returns_iff_all_done (bodies : List α)
    (order : List Nat) :
    (joinRegister bodies).spawned = bodies ∧
    scopeMayReturn bodies.length (childStatuses order) =
      (List.range bodies.length).all (fun i => order.contains i) :=
  ⟨joinRegister_spawned bodies, scopeMayReturn_childStatuses bodies.length order⟩

/-- C8: a `coroutine_local!` descriptor's key function returns the same
identity on every call, and on first access (no cell present for that
identity) `with` runs the initializer and stores its result as the cell
value. -/
theorem coroutine_local_key_stable_and_lazy_init (k : Nat) (e : α)
    (cells : List (Nat × α)) (h : lookupCell cells k = none) :
    (∀ u v : Unit,
      (coroutine_local k e).__key u = (coroutine_local k e).__key v) ∧
    (coroutine_local k e).withAccess cells = (e, cells ++ [(k, e)]) := by
  refine ⟨fun u v => rfl, ?_⟩
  simp [LocalKey.withAccess, coroutine_local, h]

/-- C8 witness: at identity 2 with initializer 7 and a coroutine whose cell
map holds only identity 1, the first access stores the initializer's
result. -/
theorem coroutine_local_key_stable_and_lazy_init_witness :
    lookupCell ([(1, 5)] : List (Nat × Nat)) 2 = none ∧
    ((∀ u v : Unit,
        (coroutine_local 2 (7 : Nat)).__key u =
          (coroutine_local 2 (7 : Nat)).__key v) ∧
      (coroutine_local 2 (7 : Nat)).withAccess [(1, 5)] =
        (7, [(1, 5), (2, 7)])) :=
  ⟨by decide, coroutine_local_key_stable_and_lazy_init 2 7 [(1, 5)] (by decide)⟩

/-- C9: when the case pattern does not match the guard's result, the
one-shot arm skips the body but still pushes its token to the outbox exactly
once before terminating: the trace is exactly `[sendToken t]`. -/
theorem oneshot_no_match_still_sends (t : Nat) :
    oneshotArmTrace t false = [ArmAction.sendToken t] ∧
    sendCount (oneshotArmTrace t false) t = 1 := by
  refine ⟨by simp [oneshotArmTrace], ?_⟩
  simp [sendCount, oneshotArmTrace, List.countP_cons]

/-- C10: two `coroutine_local!` expansions with distinct marker-type ids
yield descriptors with unequal identity tokens, and accessing one descriptor
(possibly creating its cell) never changes what the other descriptor's
lookup observes in the same coroutine — the cells never alias. -/
theorem coroutine_local_distinct_keys_no_alias (k1 k2 : Nat) (e1 e2 : α)
    (cells : List (Nat × α)) (h : k1 ≠ k2) :
    (coroutine_local k1 e1).__key () ≠ (coroutine_local k2 e2).__key () ∧
    lookupCell ((coroutine_local k1 e1).withAccess cells).2
        ((coroutine_local k2 e2).__key ()) =
      lookupCell cells ((coroutine_local k2 e2).__key ()) := by
  refine ⟨by simpa [coroutine_local] using h, ?_⟩
  cases hf : lookupCell cells k1 with
  | some v => simp [LocalKey.withAccess, coroutine_local, hf]
  | none =>
      simp [LocalKey.withAccess, coroutine_local, hf,
        lookupCell_append_ne cells k1 k2 e1 h]

/-- C10 witness: identities 1 and 2 with initializers 10 and 20, on an empty
cell map: the keys differ and creating descriptor 1's cell leaves descriptor
2's lookup unchanged. -/
theorem coroutine_local_distinct_keys_no_alias_witness :
    (1 : Nat) ≠ 2 ∧
    ((coroutine_local 1 (10 : Nat)).__key () ≠
        (coroutine_local 2 (20 : Nat)).__key () ∧
      lookupCell ((coroutine_local 1 (10 : Nat)).withAccess []).2
          ((coroutine_local 2 (20 : Nat)).__key ()) =
        lookupCell ([] : List (Nat × Nat))
          ((coroutine_local 2 (20 : Nat)).__key ())) :=
  ⟨by decide, coroutine_local_distinct_keys_no_alias 1 2 10 20 [] (by decide)⟩

end Mco
